import Mathlib

/-!
Shallow embedding of the fitness-log CRUD API (src/app.py) and proofs of the
specified properties. Tables are lists of rows in insertion order; every
handler is a pure function from the store and the request to a response and
the next store state.
-/

namespace FitnessApp

/-- Model of a JSON value for a string-typed field of a request body: the field
can be absent from the JSON object, present with value null, or present with a
string value. -/
inductive JsonField where
  | absent
  | null
  | str (s : String)
  deriving Repr, DecidableEq

/-- Model of Python dict.get on a parsed JSON body: an absent field and a field
holding null both come back as None (app.py lines 74-76, 99-100, 129-130,
171-172). -/
def JsonField.get : JsonField → Option String
  | .absent => none
  | .null => none
  | .str s => some s

/-- Python truthiness test `not x` for an optional string: true exactly for
None and for the empty string. -/
def falsy : Option String → Bool
  | none => true
  | some s => s == ""

/-- Model of werkzeug generate_password_hash (delegated library, out of scope
per spec section 1): an abstract salted hash, kept injective so that
check_password_hash agrees with plaintext equality. -/
def generate_password_hash (password : String) : String :=
  "pbkdf2-sha256$" ++ password

/-- Model of werkzeug check_password_hash (delegated library): verifies a
plaintext password against a stored hash (app.py lines 40-41). -/
def check_password_hash (hashed password : String) : Bool :=
  hashed == generate_password_hash password

/-- Model of flask_jwt_extended create_access_token (delegated library): a
signed token carrying the given identity string (app.py line 109). -/
def create_access_token (identity : String) : String :=
  "jwt." ++ identity

/-- Authentication material attached to a request, as the token layer of the
spec (section 4.2) classifies it: no token, a token that fails verification
(malformed, expired, bad signature), or a token that verifies and carries an
identity claim. -/
inductive Auth where
  | noToken
  | badToken
  | token (identity : String)
  deriving Repr, DecidableEq

/-- Model of flask_jwt_extended get_jwt_identity combined with the spec's
token verifier (section 4.2, verify(token) -> user_id | null): the identity
claim of a verified token, None when the token is missing or fails
verification. -/
def get_jwt_identity : Auth → Option String
  | .noToken => none
  | .badToken => none
  | .token identity => some identity

/-- Row of the users table (app.py lines 29-35). -/
structure User where
  id : Nat
  name : String
  reg_number : String
  password_hash : String
  deriving Repr, DecidableEq

/-- The JSON dict produced by User.to_dict (app.py lines 43-48). -/
structure UserDict where
  id : Nat
  name : String
  reg_number : String
  deriving Repr, DecidableEq

/-- User.to_dict (app.py lines 43-48). -/
def User.to_dict (u : User) : UserDict :=
  ⟨u.id, u.name, u.reg_number⟩

/-- Row of the fitness_items table (app.py lines 50-55). -/
structure FitnessItem where
  id : Nat
  title : String
  description : Option String
  user_id : Nat
  deriving Repr, DecidableEq

/-- The JSON dict produced by FitnessItem.to_dict (app.py lines 57-63). -/
structure ItemDict where
  id : Nat
  title : String
  description : Option String
  user_id : Nat
  deriving Repr, DecidableEq

/-- FitnessItem.to_dict (app.py lines 57-63). -/
def FitnessItem.to_dict (it : FitnessItem) : ItemDict :=
  ⟨it.id, it.title, it.description, it.user_id⟩

/-- The persistent store: the rows of the two tables, in insertion order, plus
the primary-key sequences. -/
structure DB where
  users : List User
  items : List FitnessItem
  next_user_id : Nat
  next_item_id : Nat
  deriving Repr, DecidableEq

/-- JSON response envelope together with the HTTP status code: every handler
returns a JSON object holding some subset of the keys msg, user, item, items
and access_token (spec section 6). -/
structure Response where
  status : Nat
  msg : Option String
  user : Option UserDict
  item : Option ItemDict
  items : Option (List ItemDict)
  access_token : Option String
  deriving Repr, DecidableEq

/-- Response carrying only a msg, as jsonify with a msg key plus a status. -/
def Response.msgOnly (status : Nat) (m : String) : Response :=
  ⟨status, some m, none, none, none, none⟩

/-- Replace the first element satisfying p by its image under f: the effect on
the table of mutating the row returned by Query.first() and committing. -/
def update_first {α : Type} (p : α → Bool) (f : α → α) : List α → List α
  | [] => []
  | x :: xs => if p x then f x :: xs else x :: update_first p f xs

/-- Remove the first element satisfying p: the effect of db.session.delete on
the row returned by Query.first(). -/
def remove_first {α : Type} (p : α → Bool) : List α → List α
  | [] => []
  | x :: xs => if p x then xs else x :: remove_first p xs

/-- Commit of a freshly added User row (app.py line 88): the unique constraint
on reg_number (line 33) makes the commit raise IntegrityError exactly when a
row with the same reg_number is already in the table at commit time. -/
def commit_new_user (db : DB) (u : User) : Except Unit DB :=
  if db.users.any (fun v => v.reg_number == u.reg_number) then Except.error ()
  else Except.ok ⟨db.users ++ [u], db.items, db.next_user_id + 1, db.next_item_id⟩

/-- Body of POST /register after field validation (app.py lines 81-93), with
the table state at commit time passed separately: db is the state read by the
pre-emptive duplicate check (line 81), dbc the state the commit applies to
(line 88). A sequential request has dbc = db; a dbc different from db models a
concurrent registration committed inside the race window between the check and
the commit (spec section 5), answered by the IntegrityError fallback
(lines 89-91). -/
def register_checked (db dbc : DB) (name reg_number password : String) : Response × DB :=
  if (db.users.find? (fun u => u.reg_number == reg_number)).isSome then
    (Response.msgOnly 409 "reg_number already exists", dbc)
  else
    let user : User := ⟨dbc.next_user_id, name, reg_number, generate_password_hash password⟩
    match commit_new_user dbc user with
    | Except.error _ => (Response.msgOnly 409 "reg_number already exists", dbc)
    | Except.ok db2 => (⟨201, some "user created", some user.to_dict, none, none, none⟩, db2)

/-- POST /register (app.py lines 70-93). -/
def register (db : DB) (body_name body_reg body_password : JsonField) : Response × DB :=
  let name := body_name.get
  let reg_number := body_reg.get
  let password := body_password.get
  if falsy name || falsy reg_number || falsy password then
    (Response.msgOnly 400 "name, reg_number and password are required", db)
  else
    register_checked db db (name.getD "") (reg_number.getD "") (password.getD "")

/-- POST /login (app.py lines 95-110). -/
def login (db : DB) (body_reg body_password : JsonField) : Response × DB :=
  let reg_number := body_reg.get
  let password := body_password.get
  if falsy reg_number || falsy password then
    (Response.msgOnly 400 "reg_number and password are required", db)
  else
    match db.users.find? (fun u => u.reg_number == reg_number.getD "") with
    | none => (Response.msgOnly 401 "invalid credentials", db)
    | some user =>
      if check_password_hash user.password_hash (password.getD "") then
        (⟨200, none, some user.to_dict, none, none,
          some (create_access_token (toString user.id))⟩, db)
      else (Response.msgOnly 401 "invalid credentials", db)

/-- Decimal digit value of a character, None for a non-digit. -/
def digit? (c : Char) : Option Nat :=
  let n := c.toNat
  if 48 ≤ n ∧ n ≤ 57 then some (n - 48) else none

/-- Model of Python int(identity) for the identity strings of this app
(app.py line 119): parse of a nonnegative decimal numeral, None when the
string is empty or holds a non-digit. User ids are nonnegative, so an
identity that int() accepts but that matches no users row and an identity
that int() rejects both end at None in get_current_user, and the observable
result agrees with the source. -/
def parse_user_id (s : String) : Option Nat :=
  if s.data.isEmpty then none
  else s.data.foldl
    (fun acc c =>
      match acc, digit? c with
      | some n, some d => some (n * 10 + d)
      | _, _ => none)
    (some 0)

/-- get_current_user (app.py lines 113-122): resolve the token identity to a
User row; None when there is no verified identity, the identity does not
parse as an integer, or no user has that id. -/
def get_current_user (db : DB) (auth : Auth) : Option User :=
  match get_jwt_identity auth with
  | none => none
  | some identity =>
    match parse_user_id identity with
    | none => none
    | some user_id => db.users.find? (fun u => u.id == user_id)

/-- POST /fitness (app.py lines 125-143). -/
def create_fitness_item (db : DB) (auth : Auth) (body_title body_description : JsonField) :
    Response × DB :=
  let title := body_title.get
  let description := body_description.get
  if falsy title then (Response.msgOnly 400 "title is required", db)
  else
    match get_current_user db auth with
    | none => (Response.msgOnly 401 "invalid or expired token", db)
    | some user =>
      let item : FitnessItem := ⟨db.next_item_id, title.getD "", description, user.id⟩
      (⟨201, some "created", none, some item.to_dict, none, none⟩,
       ⟨db.users, db.items ++ [item], db.next_user_id, db.next_item_id + 1⟩)

/-- GET /fitness (app.py lines 145-153). -/
def list_fitness_items (db : DB) (auth : Auth) : Response × DB :=
  match get_current_user db auth with
  | none => (Response.msgOnly 401 "invalid or expired token", db)
  | some user =>
    let owned := db.items.filter (fun it => it.user_id == user.id)
    (⟨200, none, none, none, some (owned.map FitnessItem.to_dict), none⟩, db)

/-- GET /fitness/<item_id> (app.py lines 155-165). -/
def get_fitness_item (db : DB) (auth : Auth) (item_id : Nat) : Response × DB :=
  match get_current_user db auth with
  | none => (Response.msgOnly 401 "invalid or expired token", db)
  | some user =>
    match db.items.find? (fun it => it.id == item_id && it.user_id == user.id) with
    | none => (Response.msgOnly 404 "not found", db)
    | some item => (⟨200, none, none, some item.to_dict, none, none⟩, db)

/-- Field update applied to the found row (app.py lines 182-185): the title is
replaced only when truthy (present and non-empty), the description whenever it
is not None. -/
def apply_update (title description : Option String) (item : FitnessItem) : FitnessItem :=
  let item1 :=
    if falsy title then item else ⟨item.id, title.getD "", item.description, item.user_id⟩
  if description.isSome then ⟨item1.id, item1.title, description, item1.user_id⟩ else item1

/-- PUT /fitness/<item_id> (app.py lines 167-188). -/
def update_fitness_item (db : DB) (auth : Auth) (item_id : Nat)
    (body_title body_description : JsonField) : Response × DB :=
  let title := body_title.get
  let description := body_description.get
  match get_current_user db auth with
  | none => (Response.msgOnly 401 "invalid or expired token", db)
  | some user =>
    match db.items.find? (fun it => it.id == item_id && it.user_id == user.id) with
    | none => (Response.msgOnly 404 "not found", db)
    | some item =>
      let item2 := apply_update title description item
      (⟨200, some "updated", none, some item2.to_dict, none, none⟩,
       ⟨db.users,
        update_first (fun it => it.id == item_id && it.user_id == user.id)
          (apply_update title description) db.items,
        db.next_user_id, db.next_item_id⟩)

/-- DELETE /fitness/<item_id> (app.py lines 190-202). -/
def delete_fitness_item (db : DB) (auth : Auth) (item_id : Nat) : Response × DB :=
  match get_current_user db auth with
  | none => (Response.msgOnly 401 "invalid or expired token", db)
  | some user =>
    match db.items.find? (fun it => it.id == item_id && it.user_id == user.id) with
    | none => (Response.msgOnly 404 "not found", db)
    | some _found =>
      (Response.msgOnly 200 "deleted",
       ⟨db.users,
        remove_first (fun it => it.id == item_id && it.user_id == user.id) db.items,
        db.next_user_id, db.next_item_id⟩)

/-- Deletion of a User row with the declared relationship cascade (app.py
line 35, cascade all delete-orphan; exercised by clean_smoke_data.py):
removing a user also removes every FitnessItem owned by it. -/
def delete_user (db : DB) (uid : Nat) : DB :=
  ⟨db.users.filter (fun u => !(u.id == uid)),
   db.items.filter (fun it => !(it.user_id == uid)),
   db.next_user_id, db.next_item_id⟩

/-- State invariants of the store: reg_numbers and primary keys are unique,
every item's user_id refers to an existing user, and the primary-key sequences
are ahead of every existing row. -/
def DB.Inv (db : DB) : Prop :=
  (db.users.map (fun u => u.reg_number)).Nodup ∧
  (db.users.map (fun u => u.id)).Nodup ∧
  (db.items.map (fun it => it.id)).Nodup ∧
  (∀ it ∈ db.items, ∃ u ∈ db.users, u.id = it.user_id) ∧
  (∀ u ∈ db.users, u.id < db.next_user_id) ∧
  (∀ it ∈ db.items, it.id < db.next_item_id)

instance (db : DB) : Decidable (DB.Inv db) := by
  unfold DB.Inv
  infer_instance

/-! ### Helper lemmas on lists and on the handlers -/

theorem find?_decomp {α : Type} (p : α → Bool) :
    ∀ (l : List α) (x : α), l.find? p = some x →
      l = l.takeWhile (fun y => !(p y)) ++ x :: (l.dropWhile (fun y => !(p y))).tail
  | [], x, h => by simp [List.find?] at h
  | a :: t, x, h => by
    by_cases hpa : p a = true
    · rw [List.find?_cons_of_pos t hpa] at h
      cases h
      simp [List.takeWhile_cons, List.dropWhile_cons, hpa]
    · rw [List.find?_cons_of_neg t hpa] at h
      have hpa' : p a = false := eq_false_of_ne_true hpa
      have ih := find?_decomp p t x h
      simp only [List.takeWhile_cons, List.dropWhile_cons, hpa', Bool.not_false, if_true,
        List.cons_append]
      exact congrArg (a :: ·) ih

theorem update_first_decomp {α : Type} (p : α → Bool) (f : α → α) :
    ∀ (l : List α) (x : α), l.find? p = some x →
      update_first p f l =
        l.takeWhile (fun y => !(p y)) ++ f x :: (l.dropWhile (fun y => !(p y))).tail
  | [], x, h => by simp [List.find?] at h
  | a :: t, x, h => by
    by_cases hpa : p a = true
    · rw [List.find?_cons_of_pos t hpa] at h
      cases h
      simp [update_first, List.takeWhile_cons, List.dropWhile_cons, hpa]
    · rw [List.find?_cons_of_neg t hpa] at h
      have hpa' : p a = false := eq_false_of_ne_true hpa
      have ih := update_first_decomp p f t x h
      simp only [update_first, hpa', Bool.false_eq_true, if_false, List.takeWhile_cons,
        List.dropWhile_cons, Bool.not_false, if_true, List.cons_append]
      exact congrArg (a :: ·) ih

theorem remove_first_decomp {α : Type} (p : α → Bool) :
    ∀ (l : List α) (x : α), l.find? p = some x →
      remove_first p l = l.takeWhile (fun y => !(p y)) ++ (l.dropWhile (fun y => !(p y))).tail
  | [], x, h => by simp [List.find?] at h
  | a :: t, x, h => by
    by_cases hpa : p a = true
    · rw [List.find?_cons_of_pos t hpa] at h
      cases h
      simp [remove_first, List.takeWhile_cons, List.dropWhile_cons, hpa]
    · rw [List.find?_cons_of_neg t hpa] at h
      have hpa' : p a = false := eq_false_of_ne_true hpa
      have ih := remove_first_decomp p t x h
      simp only [remove_first, hpa', Bool.false_eq_true, if_false, List.takeWhile_cons,
        List.dropWhile_cons, Bool.not_false, if_true, List.cons_append]
      exact congrArg (a :: ·) ih

theorem find?_append_right {α : Type} (p : α → Bool) :
    ∀ (l₁ l₂ : List α), (∀ y ∈ l₁, p y = false) → (l₁ ++ l₂).find? p = l₂.find? p
  | [], _, _ => rfl
  | a :: t, l₂, h => by
    have hpa : p a = false := h a (by simp)
    rw [List.cons_append, List.find?_cons_of_neg _ (by simp [hpa])]
    exact find?_append_right p t l₂ (fun y hy => h y (by simp [hy]))

theorem update_first_map {α β : Type} (p : α → Bool) (f : α → α) (g : α → β)
    (hf : ∀ x, g (f x) = g x) : ∀ l : List α, (update_first p f l).map g = l.map g
  | [] => rfl
  | a :: t => by
    by_cases hpa : p a = true
    · simp [update_first, hpa, hf]
    · simp only [update_first, hpa, if_false, Bool.false_eq_true, List.map_cons]
      rw [update_first_map p f g hf t]

theorem mem_update_first {α : Type} (p : α → Bool) (f : α → α) :
    ∀ (l : List α) (y : α), y ∈ update_first p f l → y ∈ l ∨ ∃ x ∈ l, p x = true ∧ y = f x
  | [], y, h => by simp [update_first] at h
  | a :: t, y, h => by
    by_cases hpa : p a = true
    · simp only [update_first, hpa, if_true, List.mem_cons] at h
      rcases h with h | h
      · right; exact ⟨a, by simp, hpa, h⟩
      · left; simp [h]
    · simp only [update_first, hpa, Bool.false_eq_true, if_false, List.mem_cons] at h
      rcases h with h | h
      · left; simp [h]
      · rcases mem_update_first p f t y h with h2 | ⟨x, hx, hpx, hy⟩
        · left; simp [h2]
        · right; exact ⟨x, by simp [hx], hpx, hy⟩

theorem remove_first_sublist {α : Type} (p : α → Bool) :
    ∀ l : List α, List.Sublist (remove_first p l) l
  | [] => List.Sublist.slnil
  | a :: t => by
    by_cases hpa : p a = true
    · simp only [remove_first, hpa, if_true]
      exact List.sublist_cons_self a t
    · simp only [remove_first, hpa, Bool.false_eq_true, if_false]
      exact List.Sublist.cons₂ a (remove_first_sublist p t)

theorem get_current_user_mem (db : DB) (auth : Auth) (u : User)
    (h : get_current_user db auth = some u) : u ∈ db.users := by
  cases auth with
  | noToken => simp [get_current_user, get_jwt_identity] at h
  | badToken => simp [get_current_user, get_jwt_identity] at h
  | token s =>
    simp only [get_current_user, get_jwt_identity] at h
    cases hp : parse_user_id s with
    | none => rw [hp] at h; cases h
    | some uid =>
      rw [hp] at h
      exact List.mem_of_find?_eq_some h

theorem get_current_user_items_irrelevant (users : List User)
    (items items2 : List FitnessItem) (a b a2 b2 : Nat) (auth : Auth) :
    get_current_user ⟨users, items2, a2, b2⟩ auth = get_current_user ⟨users, items, a, b⟩ auth :=
  rfl

theorem login_snd (db : DB) (a b : JsonField) : (login db a b).2 = db := by
  unfold login
  dsimp only
  split
  · rfl
  · split
    · rfl
    · split <;> rfl

theorem list_fitness_items_snd (db : DB) (auth : Auth) : (list_fitness_items db auth).2 = db := by
  unfold list_fitness_items
  split <;> rfl

theorem get_fitness_item_snd (db : DB) (auth : Auth) (item_id : Nat) :
    (get_fitness_item db auth item_id).2 = db := by
  unfold get_fitness_item
  split
  · rfl
  · split <;> rfl

/-! ### Sample rows for the witnesses -/

/-- Sample user with id 1. -/
def alice : User := ⟨1, "Alice", "R1", generate_password_hash "pw1"⟩

/-- Sample user with id 2. -/
def bob : User := ⟨2, "Bob", "R2", generate_password_hash "pw2"⟩

/-- Sample fitness item owned by alice. -/
def sampleItem : FitnessItem := ⟨1, "Run", some "3km", 1⟩

/-- Sample store with two users and one item owned by alice. -/
def sampleDB : DB := ⟨[alice, bob], [sampleItem], 3, 2⟩

theorem JsonField.get_absent : JsonField.absent.get = none := rfl

theorem JsonField.get_null : JsonField.null.get = none := rfl

theorem JsonField.get_str (s : String) : (JsonField.str s).get = some s := rfl

theorem apply_update_description_none (t : Option String) (item : FitnessItem) :
    (apply_update t none item).description = item.description := by
  unfold apply_update
  dsimp only
  simp only [Option.isSome_none, Bool.false_eq_true, if_false]
  split <;> rfl

theorem apply_update_description_some (t : Option String) (d : String) (item : FitnessItem) :
    (apply_update t (some d) item).description = some d := by
  unfold apply_update
  dsimp only
  simp

theorem apply_update_title_falsy (t d : Option String) (item : FitnessItem)
    (h : falsy t = true) : (apply_update t d item).title = item.title := by
  unfold apply_update
  dsimp only
  rw [h]
  cases d <;> simp

theorem apply_update_title_truthy (t : String) (d : Option String) (item : FitnessItem)
    (h : t ≠ "") : (apply_update (some t) d item).title = t := by
  unfold apply_update
  dsimp only
  simp only [falsy, beq_eq_false_iff_ne, ne_eq, h, not_false_eq_true, if_neg,
    Option.getD_some]
  cases d <;> simp [falsy, h]

theorem apply_update_id (t d : Option String) (item : FitnessItem) :
    (apply_update t d item).id = item.id := by
  unfold apply_update
  dsimp only
  split <;> split <;> rfl

theorem apply_update_user_id (t d : Option String) (item : FitnessItem) :
    (apply_update t d item).user_id = item.user_id := by
  unfold apply_update
  dsimp only
  split <;> split <;> rfl

/-- Store with every fitness item of a given id removed: the comparison point
for "as if no item with that id exists". -/
def without_item (db : DB) (item_id : Nat) : DB :=
  ⟨db.users, db.items.filter (fun it => !(it.id == item_id)), db.next_user_id, db.next_item_id⟩

/-! ### The claims -/

/-- C4: for every login attempt with both fields supplied, the two failure
causes — no user matches the given reg_number, and a matching user whose
password hash does not verify — produce the same observable result: the very
same response value, message "invalid credentials" and status 401, so a caller
cannot distinguish which of the two failed. -/
theorem login_failure_indistinguishable (db : DB) (reg pw : String)
    (hreg : reg ≠ "") (hpw : pw ≠ "") :
    ((∀ u ∈ db.users, u.reg_number ≠ reg) →
      login db (.str reg) (.str pw) = (Response.msgOnly 401 "invalid credentials", db)) ∧
    (∀ u, db.users.find? (fun v => v.reg_number == reg) = some u →
      check_password_hash u.password_hash pw = false →
      login db (.str reg) (.str pw) = (Response.msgOnly 401 "invalid credentials", db)) := by
  have hfr : falsy (some reg) = false := by simp [falsy, hreg]
  have hfp : falsy (some pw) = false := by simp [falsy, hpw]
  constructor
  · intro hno
    have hfind : db.users.find? (fun v => v.reg_number == reg) = none := by
      rw [List.find?_eq_none]
      intro u hu
      simp [hno u hu]
    simp [login, hfr, hfp, hfind, JsonField.get]
  · intro u hfind hcp
    simp [login, hfr, hfp, hfind, hcp, JsonField.get]

/-- Witness for C4 at a concrete store: a login with an unknown reg_number
gets the uniform 401 response. -/
theorem login_failure_indistinguishable_witness :
    login sampleDB (.str "R9") (.str "pw1") =
      (Response.msgOnly 401 "invalid credentials", sampleDB) :=
  (login_failure_indistinguishable sampleDB "R9" "pw1" (by decide) (by decide)).1 (by decide)

/-- C8: on POST /fitness the title-presence check runs before the current user
is resolved: a request whose token passes verification but names a
non-existent user id still gets status 400 "title is required" when the title
is missing or empty, not 401. -/
theorem create_title_check_precedes_user_resolution (db : DB) (s : String) (uid : Nat)
    (tf df : JsonField)
    (hparse : parse_user_id s = some uid)
    (hnouser : db.users.all (fun u => !(u.id == uid)) = true)
    (htitle : falsy tf.get = true) :
    create_fitness_item db (.token s) tf df = (Response.msgOnly 400 "title is required", db) := by
  simp [create_fitness_item, htitle]

/-- Witness for C8: a verified token naming absent user id 9 plus an empty
title yields 400, not 401. -/
theorem create_title_check_precedes_user_resolution_witness :
    create_fitness_item sampleDB (.token "9") (.str "") .absent =
      (Response.msgOnly 400 "title is required", sampleDB) :=
  create_title_check_precedes_user_resolution sampleDB "9" 9 (.str "") .absent
    (by decide) (by decide) (by decide)

/-- C9: on PUT /fitness/<id> a body whose description field holds null is
treated identically to a body omitting the field: the whole request outcome is
the same, and on success the prior description is preserved, so an explicit
null cannot clear a description. -/
theorem update_null_description_like_omitted (db : DB) (auth : Auth) (item_id : Nat)
    (tf : JsonField) (u : User) (item : FitnessItem)
    (hu : get_current_user db auth = some u)
    (hfind : db.items.find? (fun it => it.id == item_id && it.user_id == u.id) = some item) :
    update_fitness_item db auth item_id tf JsonField.null =
      update_fitness_item db auth item_id tf JsonField.absent ∧
    ((update_fitness_item db auth item_id tf JsonField.null).1.item.map
      (fun d => d.description)) = some item.description := by
  constructor
  · rfl
  · simp only [update_fitness_item, hu, hfind]
    cases tf with
    | absent => simp [apply_update, JsonField.get, falsy, FitnessItem.to_dict]
    | null => simp [apply_update, JsonField.get, falsy, FitnessItem.to_dict]
    | str s =>
      by_cases hs : s = "" <;>
        simp [apply_update, JsonField.get, falsy, hs, FitnessItem.to_dict]

/-- Witness for C9: updating the sample item with a null description keeps the
prior description "3km". -/
theorem update_null_description_like_omitted_witness :
    ((update_fitness_item sampleDB (.token "1") 1 (.str "Walk") JsonField.null).1.item.map
      (fun d => d.description)) = some (some "3km") :=
  (update_null_description_like_omitted sampleDB (.token "1") 1 (.str "Walk") alice sampleItem
    (by decide) (by decide)).2

/-- C5: a request whose token verifies but encodes a user id with no User
record behaves exactly like a request with no token on every protected route:
the responses are equal (401 "invalid or expired token" wherever the request
reaches user resolution), and the fitness item store is never touched. -/
theorem verified_token_unknown_user_like_no_token (db : DB) (s : String) (uid item_id : Nat)
    (tf df : JsonField)
    (hparse : parse_user_id s = some uid)
    (hnouser : db.users.all (fun u => !(u.id == uid)) = true) :
    list_fitness_items db (.token s) = list_fitness_items db .noToken ∧
    list_fitness_items db (.token s) = (Response.msgOnly 401 "invalid or expired token", db) ∧
    get_fitness_item db (.token s) item_id = get_fitness_item db .noToken item_id ∧
    get_fitness_item db (.token s) item_id =
      (Response.msgOnly 401 "invalid or expired token", db) ∧
    update_fitness_item db (.token s) item_id tf df =
      update_fitness_item db .noToken item_id tf df ∧
    update_fitness_item db (.token s) item_id tf df =
      (Response.msgOnly 401 "invalid or expired token", db) ∧
    delete_fitness_item db (.token s) item_id = delete_fitness_item db .noToken item_id ∧
    delete_fitness_item db (.token s) item_id =
      (Response.msgOnly 401 "invalid or expired token", db) ∧
    create_fitness_item db (.token s) tf df = create_fitness_item db .noToken tf df ∧
    (create_fitness_item db (.token s) tf df).2 = db := by
  have hcu : get_current_user db (.token s) = none := by
    simp only [get_current_user, get_jwt_identity, hparse]
    rw [List.find?_eq_none]
    intro u hu
    simpa using List.all_eq_true.mp hnouser u hu
  have hcu0 : get_current_user db .noToken = none := rfl
  refine ⟨?_, ?_, ?_, ?_, ?_, ?_, ?_, ?_, ?_, ?_⟩
  · simp [list_fitness_items, hcu, hcu0]
  · simp [list_fitness_items, hcu]
  · simp [get_fitness_item, hcu, hcu0]
  · simp [get_fitness_item, hcu]
  · simp [update_fitness_item, hcu, hcu0]
  · simp [update_fitness_item, hcu]
  · simp [delete_fitness_item, hcu, hcu0]
  · simp [delete_fitness_item, hcu]
  · cases hft : falsy tf.get <;> simp [create_fitness_item, hft, hcu, hcu0]
  · cases hft : falsy tf.get <;> simp [create_fitness_item, hft, hcu]

/-- Witness for C5: token "9" verifies and parses but names no user; the GET
on an item behaves as with no token. -/
theorem verified_token_unknown_user_like_no_token_witness :
    get_fitness_item sampleDB (.token "9") 1 =
      (Response.msgOnly 401 "invalid or expired token", sampleDB) :=
  (verified_token_unknown_user_like_no_token sampleDB "9" 9 1 .absent .absent
    (by decide) (by decide)).2.2.2.1

/-- C1: for an authenticated user u and an existing item owned by a different
user, GET, PUT and DELETE on that item id return exactly the 404 "not found"
response with the store unchanged — status 404 and never 403 — and this is the
very same outcome the three routes produce when no item with that id exists at
all (the same store with the item removed). -/
theorem cross_user_access_not_found (db : DB) (auth : Auth) (u : User)
    (item : FitnessItem) (item_id : Nat) (tf df : JsonField)
    (hu : get_current_user db auth = some u)
    (hnodup : (db.items.map (fun it => it.id)).Nodup)
    (hmem : item ∈ db.items) (hid : item.id = item_id) (howner : item.user_id ≠ u.id) :
    get_fitness_item db auth item_id = (Response.msgOnly 404 "not found", db) ∧
    update_fitness_item db auth item_id tf df = (Response.msgOnly 404 "not found", db) ∧
    delete_fitness_item db auth item_id = (Response.msgOnly 404 "not found", db) ∧
    (get_fitness_item db auth item_id).1.status = 404 ∧
    (get_fitness_item db auth item_id).1.status ≠ 403 ∧
    get_fitness_item (without_item db item_id) auth item_id =
      (Response.msgOnly 404 "not found", without_item db item_id) ∧
    update_fitness_item (without_item db item_id) auth item_id tf df =
      (Response.msgOnly 404 "not found", without_item db item_id) ∧
    delete_fitness_item (without_item db item_id) auth item_id =
      (Response.msgOnly 404 "not found", without_item db item_id) := by
  have hfind : db.items.find? (fun it => it.id == item_id && it.user_id == u.id) = none := by
    rw [List.find?_eq_none]
    intro y hy
    simp only [Bool.and_eq_true, beq_iff_eq, not_and]
    intro hyid
    have hyi : y = item := List.inj_on_of_nodup_map hnodup hy hmem (by rw [hyid, hid])
    rw [hyi]
    exact howner
  have hu2 : get_current_user (without_item db item_id) auth = some u := hu
  have hfind2 : (without_item db item_id).items.find?
      (fun it => it.id == item_id && it.user_id == u.id) = none := by
    rw [List.find?_eq_none]
    intro y hy
    have hyf := (List.mem_filter.mp hy).2
    simp only [Bool.and_eq_true, beq_iff_eq, not_and]
    intro hyid
    simp [hyid] at hyf
  refine ⟨?_, ?_, ?_, ?_, ?_, ?_, ?_, ?_⟩
  · simp [get_fitness_item, hu, hfind]
  · simp [update_fitness_item, hu, hfind]
  · simp [delete_fitness_item, hu, hfind]
  · simp [get_fitness_item, hu, hfind, Response.msgOnly]
  · simp [get_fitness_item, hu, hfind, Response.msgOnly]
  · simp [get_fitness_item, hu2, hfind2]
  · simp [update_fitness_item, hu2, hfind2]
  · simp [delete_fitness_item, hu2, hfind2]

/-- Witness for C1: bob (token "2") probing alice's item 1 observes the plain
404 with the store unchanged. -/
theorem cross_user_access_not_found_witness :
    get_fitness_item sampleDB (.token "2") 1 = (Response.msgOnly 404 "not found", sampleDB) :=
  (cross_user_access_not_found sampleDB (.token "2") bob sampleItem 1 .absent .absent
    (by decide) (by decide) (by decide) (by decide) (by decide)).1

/-- C3: a successful update replaces the stored title only when the title
field is provided and non-empty (omitted or empty leaves it unchanged), and
replaces the stored description exactly when the description field carries a
string, including the empty string (omitted preserves the prior description,
"" sets it to empty); the response carries the item with the updated fields,
and that item is stored. -/
theorem update_replacement_semantics (db : DB) (auth : Auth) (u : User)
    (item : FitnessItem) (item_id : Nat) (tf df : JsonField)
    (hu : get_current_user db auth = some u)
    (hfind : db.items.find? (fun it => it.id == item_id && it.user_id == u.id) = some item) :
    (update_fitness_item db auth item_id tf df).1 =
      ⟨200, some "updated", none, some (apply_update tf.get df.get item).to_dict,
        none, none⟩ ∧
    (df = JsonField.absent → (apply_update tf.get df.get item).description =
      item.description) ∧
    (∀ d, df = JsonField.str d → (apply_update tf.get df.get item).description = some d) ∧
    ((tf = JsonField.absent ∨ tf = JsonField.str "") →
      (apply_update tf.get df.get item).title = item.title) ∧
    (∀ t, t ≠ "" → tf = JsonField.str t → (apply_update tf.get df.get item).title = t) ∧
    apply_update tf.get df.get item ∈ (update_fitness_item db auth item_id tf df).2.items := by
  refine ⟨?_, ?_, ?_, ?_, ?_, ?_⟩
  · simp [update_fitness_item, hu, hfind]
  · intro h
    subst h
    exact apply_update_description_none tf.get item
  · intro d h
    subst h
    exact apply_update_description_some tf.get d item
  · intro h
    rcases h with h | h <;> subst h
    · exact apply_update_title_falsy _ _ item rfl
    · exact apply_update_title_falsy _ _ item rfl
  · intro t ht h
    subst h
    exact apply_update_title_truthy t _ item ht
  · simp only [update_fitness_item, hu, hfind]
    rw [update_first_decomp _ _ db.items item hfind]
    simp

/-- Witness for C3: alice updates item 1 with title "Walk" and description "";
the stored item carries the new title and the cleared description. -/
theorem update_replacement_semantics_witness :
    (update_fitness_item sampleDB (.token "1") 1 (.str "Walk") (.str "")).1 =
      ⟨200, some "updated", none,
        some (apply_update (some "Walk") (some "") sampleItem).to_dict, none, none⟩ :=
  (update_replacement_semantics sampleDB (.token "1") alice sampleItem 1
    (.str "Walk") (.str "") (by decide) (by decide)).1

/-- C6: round-trip — a successful create with title t and description d
followed by a get of the returned item id yields status 200 and an item whose
title is t and whose description is d. -/
theorem create_get_roundtrip (db : DB) (auth : Auth) (u : User) (t : String) (df : JsonField)
    (hu : get_current_user db auth = some u)
    (ht : t ≠ "")
    (hfresh : db.items.all (fun it => !(it.id == db.next_item_id)) = true) :
    (create_fitness_item db auth (.str t) df).1.status = 201 ∧
    (create_fitness_item db auth (.str t) df).1.item =
      some ⟨db.next_item_id, t, df.get, u.id⟩ ∧
    (get_fitness_item (create_fitness_item db auth (.str t) df).2 auth db.next_item_id).1 =
      ⟨200, none, none, some ⟨db.next_item_id, t, df.get, u.id⟩, none, none⟩ := by
  have hft : falsy (some t) = false := by simp [falsy, ht]
  have hc : create_fitness_item db auth (.str t) df =
      (⟨201, some "created", none, some ⟨db.next_item_id, t, df.get, u.id⟩, none, none⟩,
       ⟨db.users, db.items ++ [⟨db.next_item_id, t, df.get, u.id⟩], db.next_user_id,
        db.next_item_id + 1⟩) := by
    simp [create_fitness_item, JsonField.get_str, hft, hu, FitnessItem.to_dict]
  have hu2 : get_current_user
      (⟨db.users, db.items ++ [⟨db.next_item_id, t, df.get, u.id⟩], db.next_user_id,
        db.next_item_id + 1⟩ : DB) auth = some u := hu
  have hall : ∀ y ∈ db.items,
      (fun it => it.id == db.next_item_id && it.user_id == u.id) y = false := by
    intro y hy
    have hne := List.all_eq_true.mp hfresh y hy
    simp only [Bool.not_eq_eq_eq_not, Bool.not_true, beq_eq_false_iff_ne, ne_eq] at hne
    have hb : (y.id == db.next_item_id) = false := by simpa using hne
    simp [hb]
  have hfind : (db.items ++ [(⟨db.next_item_id, t, df.get, u.id⟩ : FitnessItem)]).find?
      (fun it => it.id == db.next_item_id && it.user_id == u.id) =
      some ⟨db.next_item_id, t, df.get, u.id⟩ := by
    rw [find?_append_right _ db.items _ hall]
    rw [List.find?_cons_of_pos _ (by simp)]
  refine ⟨?_, ?_, ?_⟩
  · rw [hc]
  · rw [hc]
  · rw [hc]
    simp [get_fitness_item, hu2, hfind, FitnessItem.to_dict]

/-- Witness for C6: bob creates "Swim" with no description and reads it back
unchanged. -/
theorem create_get_roundtrip_witness :
    (get_fitness_item (create_fitness_item sampleDB (.token "2") (.str "Swim")
        JsonField.absent).2 (.token "2") sampleDB.next_item_id).1 =
      ⟨200, none, none, some ⟨sampleDB.next_item_id, "Swim", JsonField.absent.get, bob.id⟩,
        none, none⟩ :=
  (create_get_roundtrip sampleDB (.token "2") bob "Swim" JsonField.absent
    (by decide) (by decide) (by decide)).2.2

/-- C2: registering with an already-taken reg_number fails with 409
"reg_number already exists" and leaves the users table unchanged; the
pre-emptive duplicate check and the IntegrityError fallback at commit time
report the very same conflict response; and a fresh reg_number registered
twice yields exactly one success (201) and one 409. -/
theorem register_duplicate_conflict (db dbc : DB) (n r pw : String)
    (hn : n ≠ "") (hr : r ≠ "") (hp : pw ≠ "") :
    (db.users.any (fun u => u.reg_number == r) = true →
      register db (.str n) (.str r) (.str pw) =
        (Response.msgOnly 409 "reg_number already exists", db)) ∧
    (db.users.any (fun u => u.reg_number == r) = false →
     dbc.users.any (fun u => u.reg_number == r) = true →
      register_checked db dbc n r pw =
        (Response.msgOnly 409 "reg_number already exists", dbc) ∧
      (register_checked db dbc n r pw).1 =
        (register dbc (.str n) (.str r) (.str pw)).1) ∧
    (db.users.any (fun u => u.reg_number == r) = false →
      (register db (.str n) (.str r) (.str pw)).1.status = 201 ∧
      register (register db (.str n) (.str r) (.str pw)).2 (.str n) (.str r) (.str pw) =
        (Response.msgOnly 409 "reg_number already exists",
         (register db (.str n) (.str r) (.str pw)).2)) := by
  have hsome : ∀ l : List User, l.any (fun u => u.reg_number == r) = true →
      (l.find? (fun u => u.reg_number == r)).isSome = true := by
    intro l hl
    rcases List.any_eq_true.mp hl with ⟨u, hu, hp2⟩
    exact List.find?_isSome.mpr ⟨u, hu, hp2⟩
  have hnone : ∀ l : List User, l.any (fun u => u.reg_number == r) = false →
      l.find? (fun u => u.reg_number == r) = none := by
    intro l hl
    rcases hf : l.find? (fun u => u.reg_number == r) with _ | u
    · exact hf
    · have h1 := List.find?_some hf
      have h2 := List.mem_of_find?_eq_some hf
      have h3 : l.any (fun v => v.reg_number == r) = true := List.any_eq_true.mpr ⟨u, h2, h1⟩
      rw [hl] at h3
      cases h3
  refine ⟨?_, ?_, ?_⟩
  · intro hex
    have h1 := hsome db.users hex
    simp [register, JsonField.get_str, falsy, hn, hr, hp, register_checked, h1]
  · intro hnot hex
    have h0 := hnone db.users hnot
    have h1 := hsome dbc.users hex
    constructor
    · simp [register_checked, h0, commit_new_user, hex]
    · simp [register_checked, h0, commit_new_user, hex, register, JsonField.get_str,
        falsy, hn, hr, hp, h1]
  · intro hnot
    have h0 := hnone db.users hnot
    have hreg : register db (.str n) (.str r) (.str pw) =
        (⟨201, some "user created", some ⟨db.next_user_id, n, r⟩, none, none, none⟩,
         ⟨db.users ++ [⟨db.next_user_id, n, r, generate_password_hash pw⟩], db.items,
          db.next_user_id + 1, db.next_item_id⟩) := by
      simp [register, JsonField.get_str, falsy, hn, hr, hp, register_checked, h0,
        commit_new_user, hnot, User.to_dict]
    constructor
    · rw [hreg]
    · rw [hreg]
      have hex2 : ((db.users ++
          [(⟨db.next_user_id, n, r, generate_password_hash pw⟩ : User)]).any
          (fun u => u.reg_number == r)) = true :=
        List.any_eq_true.mpr ⟨⟨db.next_user_id, n, r, generate_password_hash pw⟩,
          by simp, by simp⟩
      have h1 := hsome _ hex2
      simp [register, JsonField.get_str, falsy, hn, hr, hp, register_checked, h1]

/-- Witness for C2: registering "R1" a second time on the sample store yields
the 409 with the store unchanged. -/
theorem register_duplicate_conflict_witness :
    register sampleDB (.str "Carol") (.str "R1") (.str "pw9") =
      (Response.msgOnly 409 "reg_number already exists", sampleDB) :=
  (register_duplicate_conflict sampleDB sampleDB "Carol" "R1" "pw9"
    (by decide) (by decide) (by decide)).1 (by decide)

/-- C10: frame — a successful DELETE removes exactly the one found item and a
successful PUT rewrites exactly that item, leaving every other fitness item,
every User record, and the relative order of the items unchanged; under unique
ids no other item shares the deleted id. -/
theorem delete_update_frame (db : DB) (auth : Auth) (u : User) (item : FitnessItem)
    (item_id : Nat) (tf df : JsonField)
    (hu : get_current_user db auth = some u)
    (hnodup : (db.items.map (fun it => it.id)).Nodup)
    (hfind : db.items.find? (fun it => it.id == item_id && it.user_id == u.id) = some item) :
    db.items =
      db.items.takeWhile (fun it => !(it.id == item_id && it.user_id == u.id)) ++ item ::
        (db.items.dropWhile (fun it => !(it.id == item_id && it.user_id == u.id))).tail ∧
    (delete_fitness_item db auth item_id).2.items =
      db.items.takeWhile (fun it => !(it.id == item_id && it.user_id == u.id)) ++
        (db.items.dropWhile (fun it => !(it.id == item_id && it.user_id == u.id))).tail ∧
    (delete_fitness_item db auth item_id).2.users = db.users ∧
    (update_fitness_item db auth item_id tf df).2.items =
      db.items.takeWhile (fun it => !(it.id == item_id && it.user_id == u.id)) ++
        apply_update tf.get df.get item ::
        (db.items.dropWhile (fun it => !(it.id == item_id && it.user_id == u.id))).tail ∧
    (update_fitness_item db auth item_id tf df).2.users = db.users ∧
    ((db.items.takeWhile (fun it => !(it.id == item_id && it.user_id == u.id)) ++
      (db.items.dropWhile (fun it => !(it.id == item_id && it.user_id == u.id))).tail).all
      (fun it => !(it.id == item_id))) = true := by
  have hdecomp := find?_decomp _ db.items item hfind
  have hid : item.id = item_id := by
    have h1 := List.find?_some hfind
    simp only [Bool.and_eq_true, beq_iff_eq] at h1
    exact h1.1
  refine ⟨hdecomp, ?_, ?_, ?_, ?_, ?_⟩
  · simp only [delete_fitness_item, hu, hfind]
    rw [remove_first_decomp _ db.items item hfind]
  · simp [delete_fitness_item, hu, hfind]
  · simp only [update_fitness_item, hu, hfind]
    rw [update_first_decomp _ _ db.items item hfind]
  · simp [update_fitness_item, hu, hfind]
  · have hnd2 := hnodup
    rw [hdecomp, List.map_append, List.map_cons] at hnd2
    have hmid := List.nodup_middle.mp hnd2
    rw [List.nodup_cons] at hmid
    rw [List.all_eq_true]
    intro y hy
    simp only [Bool.not_eq_eq_eq_not, Bool.not_true, beq_eq_false_iff_ne, ne_eq]
    intro heq
    have hyid : y.id ∈
        (db.items.takeWhile (fun it => !(it.id == item_id && it.user_id == u.id))).map
          (fun it => it.id) ++
        ((db.items.dropWhile (fun it => !(it.id == item_id && it.user_id == u.id))).tail).map
          (fun it => it.id) := by
      rcases List.mem_append.mp hy with h1 | h1
      · exact List.mem_append.mpr (Or.inl (List.mem_map_of_mem _ h1))
      · exact List.mem_append.mpr (Or.inr (List.mem_map_of_mem _ h1))
    have hyi : y.id = item.id := by rw [heq, hid]
    exact hmid.1 (hyi ▸ hyid)

/-- Witness for C10: deleting alice's item 1 leaves the users table intact. -/
theorem delete_update_frame_witness :
    (delete_fitness_item sampleDB (.token "1") 1).2.users = sampleDB.users :=
  (delete_update_frame sampleDB (.token "1") alice sampleItem 1 .absent .absent
    (by decide) (by decide) (by decide)).2.2.1

theorem Inv_register_checked (db : DB) (n r p : String) (h : DB.Inv db) :
    DB.Inv (register_checked db db n r p).2 := by
  obtain ⟨hreg, hids, hitids, href, hub, hib⟩ := h
  unfold register_checked
  dsimp only
  by_cases hf : (db.users.find? (fun u => u.reg_number == r)).isSome = true
  · rw [if_pos hf]
    exact ⟨hreg, hids, hitids, href, hub, hib⟩
  · rw [if_neg hf]
    unfold commit_new_user
    dsimp only
    by_cases ha : db.users.any (fun v => v.reg_number == r) = true
    · rw [if_pos ha]
      exact ⟨hreg, hids, hitids, href, hub, hib⟩
    · rw [if_neg ha]
      dsimp only
      have ha' : db.users.any (fun v => v.reg_number == r) = false := eq_false_of_ne_true ha
      have hrnot : r ∉ db.users.map (fun u => u.reg_number) := by
        intro hmem
        rcases List.mem_map.mp hmem with ⟨v, hv, hvr⟩
        have h3 : db.users.any (fun v => v.reg_number == r) = true :=
          List.any_eq_true.mpr ⟨v, hv, by simp [hvr]⟩
        rw [ha'] at h3
        cases h3
      have hidnot : db.next_user_id ∉ db.users.map (fun u => u.id) := by
        intro hmem
        rcases List.mem_map.mp hmem with ⟨v, hv, hvid⟩
        have := hub v hv
        omega
      refine ⟨?_, ?_, hitids, ?_, ?_, ?_⟩
      · rw [List.map_append]
        rw [List.nodup_append]
        refine ⟨hreg, List.nodup_singleton _, ?_⟩
        intro a ha1 ha2
        simp only [List.map_cons, List.map_nil, List.mem_singleton] at ha2
        subst ha2
        exact hrnot ha1
      · rw [List.map_append]
        rw [List.nodup_append]
        refine ⟨hids, List.nodup_singleton _, ?_⟩
        intro a ha1 ha2
        simp only [List.map_cons, List.map_nil, List.mem_singleton] at ha2
        subst ha2
        exact hidnot ha1
      · intro it hit
        rcases href it hit with ⟨v, hv, hvid⟩
        exact ⟨v, List.mem_append_left _ hv, hvid⟩
      · intro v hv
        rcases List.mem_append.mp hv with h1 | h1
        · exact Nat.lt_succ_of_lt (hub v h1)
        · rw [List.mem_singleton] at h1
          subst h1
          exact Nat.lt_succ_self _
      · exact hib

theorem Inv_register (db : DB) (a b c : JsonField) (h : DB.Inv db) :
    DB.Inv (register db a b c).2 := by
  unfold register
  dsimp only
  split
  · exact h
  · exact Inv_register_checked db _ _ _ h

theorem Inv_create (db : DB) (auth : Auth) (a b : JsonField) (h : DB.Inv db) :
    DB.Inv (create_fitness_item db auth a b).2 := by
  obtain ⟨hreg, hids, hitids, href, hub, hib⟩ := h
  unfold create_fitness_item
  dsimp only
  split
  · exact ⟨hreg, hids, hitids, href, hub, hib⟩
  · cases hcu : get_current_user db auth with
    | none =>
      exact ⟨hreg, hids, hitids, href, hub, hib⟩
    | some u =>
      dsimp only
      have hidnot : db.next_item_id ∉ db.items.map (fun it => it.id) := by
        intro hmem
        rcases List.mem_map.mp hmem with ⟨z, hz, hzid⟩
        have := hib z hz
        omega
      refine ⟨hreg, hids, ?_, ?_, hub, ?_⟩
      · rw [List.map_append]
        rw [List.nodup_append]
        refine ⟨hitids, List.nodup_singleton _, ?_⟩
        intro a2 ha1 ha2
        simp only [List.map_cons, List.map_nil, List.mem_singleton] at ha2
        subst ha2
        exact hidnot ha1
      · intro it hit
        rcases List.mem_append.mp hit with h1 | h1
        · exact href it h1
        · rw [List.mem_singleton] at h1
          subst h1
          exact ⟨u, get_current_user_mem db auth u hcu, rfl⟩
      · intro it hit
        rcases List.mem_append.mp hit with h1 | h1
        · exact Nat.lt_succ_of_lt (hib it h1)
        · rw [List.mem_singleton] at h1
          subst h1
          exact Nat.lt_succ_self _

theorem Inv_update (db : DB) (auth : Auth) (item_id : Nat) (a b : JsonField)
    (h : DB.Inv db) : DB.Inv (update_fitness_item db auth item_id a b).2 := by
  obtain ⟨hreg, hids, hitids, href, hub, hib⟩ := h
  unfold update_fitness_item
  dsimp only
  split
  · exact ⟨hreg, hids, hitids, href, hub, hib⟩
  · split
    · exact ⟨hreg, hids, hitids, href, hub, hib⟩
    · dsimp only
      refine ⟨hreg, hids, ?_, ?_, hub, ?_⟩
      · rw [update_first_map _ _ (fun z => z.id) (fun x => apply_update_id _ _ x) db.items]
        exact hitids
      · intro it hit
        rcases mem_update_first _ _ db.items it hit with h1 | ⟨x, hx, _, hix⟩
        · exact href it h1
        · rcases href x hx with ⟨v, hv, hvid⟩
          refine ⟨v, hv, ?_⟩
          rw [hix, apply_update_user_id]
          exact hvid
      · intro it hit
        rcases mem_update_first _ _ db.items it hit with h1 | ⟨x, hx, _, hix⟩
        · exact hib it h1
        · rw [hix, apply_update_id]
          exact hib x hx

theorem Inv_delete (db : DB) (auth : Auth) (item_id : Nat) (h : DB.Inv db) :
    DB.Inv (delete_fitness_item db auth item_id).2 := by
  obtain ⟨hreg, hids, hitids, href, hub, hib⟩ := h
  unfold delete_fitness_item
  split
  · exact ⟨hreg, hids, hitids, href, hub, hib⟩
  · split
    · exact ⟨hreg, hids, hitids, href, hub, hib⟩
    · dsimp only
      refine ⟨hreg, hids, ?_, ?_, hub, ?_⟩
      · exact List.Nodup.sublist
          (List.Sublist.map _ (remove_first_sublist _ db.items)) hitids
      · intro it hit
        exact href it ((remove_first_sublist _ db.items).subset hit)
      · intro it hit
        exact hib it ((remove_first_sublist _ db.items).subset hit)

theorem Inv_delete_user (db : DB) (uid : Nat) (h : DB.Inv db) :
    DB.Inv (delete_user db uid) := by
  obtain ⟨hreg, hids, hitids, href, hub, hib⟩ := h
  unfold delete_user
  refine ⟨?_, ?_, ?_, ?_, ?_, ?_⟩
  · exact List.Nodup.sublist (List.Sublist.map _ (List.filter_sublist _)) hreg
  · exact List.Nodup.sublist (List.Sublist.map _ (List.filter_sublist _)) hids
  · exact List.Nodup.sublist (List.Sublist.map _ (List.filter_sublist _)) hitids
  · intro it hit
    have h2 := List.mem_filter.mp hit
    rcases href it h2.1 with ⟨v, hv, hvid⟩
    refine ⟨v, List.mem_filter.mpr ⟨hv, ?_⟩, hvid⟩
    rw [hvid]
    exact h2.2
  · intro v hv
    exact hub v (List.mem_filter.mp hv).1
  · intro it hit
    exact hib it (List.mem_filter.mp hit).1

theorem delete_user_no_owned (db : DB) (uid : Nat) :
    (delete_user db uid).items.all (fun it => !(it.user_id == uid)) = true := by
  rw [List.all_eq_true]
  intro it hit
  exact (List.mem_filter.mp hit).2

/-- C7: the state invariants — globally unique reg_numbers and every
FitnessItem.user_id referring to an existing User — are preserved by every
operation, and deleting a user cascades to all items owned by it, so no
operation leaves an orphaned item. -/
theorem state_invariants_preserved (db : DB)
    (nf rf pf tf df lrf lpf : JsonField) (auth : Auth) (item_id uid : Nat)
    (hInv : DB.Inv db) :
    DB.Inv (register db nf rf pf).2 ∧
    DB.Inv (login db lrf lpf).2 ∧
    DB.Inv (create_fitness_item db auth tf df).2 ∧
    DB.Inv (list_fitness_items db auth).2 ∧
    DB.Inv (get_fitness_item db auth item_id).2 ∧
    DB.Inv (update_fitness_item db auth item_id tf df).2 ∧
    DB.Inv (delete_fitness_item db auth item_id).2 ∧
    DB.Inv (delete_user db uid) ∧
    (delete_user db uid).items.all (fun it => !(it.user_id == uid)) = true := by
  refine ⟨Inv_register db nf rf pf hInv, ?_, Inv_create db auth tf df hInv, ?_, ?_,
    Inv_update db auth item_id tf df hInv, Inv_delete db auth item_id hInv,
    Inv_delete_user db uid hInv, delete_user_no_owned db uid⟩
  · rw [login_snd]
    exact hInv
  · rw [list_fitness_items_snd]
    exact hInv
  · rw [get_fitness_item_snd]
    exact hInv

/-- Witness for C7: the invariants hold after registering a fresh user on the
sample store. -/
theorem state_invariants_preserved_witness :
    DB.Inv (register sampleDB (.str "Carol") (.str "R3") (.str "pw3")).2 :=
  (state_invariants_preserved sampleDB (.str "Carol") (.str "R3") (.str "pw3")
    .absent .absent .absent .absent (.token "1") 1 2 (by decide)).1

end FitnessApp
